import Mathlib

/-
Verification development for the EVOS browser agent core.

Shallow embedding of the Python sources:
  src/src/ai/agent.py       (Agent.run, Agent._parse_response, Agent.stop)
  src/src/ai/llm_engine.py  (OllamaEngine.initialize, GeminiEngine.initialize,
                             LLMEngine.switch_mode)

External collaborators (the model-serving endpoints, the tool executor, the
per-step callback, the json module) are modelled as oracle parameters; the
control flow and state updates of the repository code are translated
line by line, with the Python line numbers recorded in comments.
-/

set_option maxHeartbeats 1000000

namespace Evos

/-- JSON values as produced by a JSON decoder. The Python value None is
represented by Json.null (json.loads turns a JSON null into None, and the
dataclass defaults for action and action_input are None). Numbers are
modelled as integers; no claim depends on the numeric representation. -/
inductive Json where
  | null : Json
  | bool : Bool → Json
  | num : Int → Json
  | str : String → Json
  | arr : List Json → Json
  | obj : List (String × Json) → Json

/-- Python truthiness of a decoded JSON value: None, False, 0, the empty
string, the empty list and the empty dict are falsy, everything else truthy. -/
def Json.truthy : Json → Bool
  | Json.null => false
  | Json.bool b => b
  | Json.num n => n != 0
  | Json.str s => s != ""
  | Json.arr xs => !xs.isEmpty
  | Json.obj kvs => !kvs.isEmpty

/-- Python dict.get(k, dflt) on a decoded JSON object, represented as an
association list with distinct keys (json.loads produces a dict). A key that
is present wins even when its value is null; an absent key yields dflt. -/
def pyDictGet (kvs : List (String × Json)) (k : String) (dflt : Json) : Json :=
  match kvs.find? (fun kv => kv.fst == k) with
  | some kv => kv.snd
  | none => dflt

/-- Python lookup without default: some value when the key is present. -/
def pyLookup (kvs : List (String × Json)) (k : String) : Option Json :=
  match kvs.find? (fun kv => kv.fst == k) with
  | some kv => some kv.snd
  | none => none

/-- The Python comparison step.action == "answer_user" (agent.py line 169):
true exactly when the value is that string. -/
def isAnswerUser : Json → Bool
  | Json.str s => s == "answer_user"
  | _ => false

/-- The Python test step.action is None (agent.py line 190). -/
def isPyNone : Json → Bool
  | Json.null => true
  | _ => false

/-- Python x or dflt (agent.py line 180: step.action_input or \x7b\x7d). -/
def pyOr (v dflt : Json) : Json :=
  if v.truthy then v else dflt

/-- The opening brace character. -/
def lbrace : Char := Char.ofNat 123

/-- The closing brace character. -/
def rbrace : Char := Char.ofNat 125

/-- Index of the last occurrence of c in cs, when one exists. -/
def lastIdx (cs : List Char) (c : Char) : Option Nat :=
  match cs.reverse.findIdx? (fun x => x == c) with
  | some i => some (cs.length - 1 - i)
  | none => none

/-- Python str.find for a single character: first index, or -1. -/
def pyFind (cs : List Char) (c : Char) : Int :=
  match cs.findIdx? (fun x => x == c) with
  | some i => (i : Int)
  | none => -1

/-- Python str.rfind for a single character: last index, or -1. -/
def pyRFind (cs : List Char) (c : Char) : Int :=
  match lastIdx cs c with
  | some j => (j : Int)
  | none => -1

/-- Python slicing cs[a:b]; only reached with 0 <= a < b in the parser. -/
def pySlice (cs : List Char) (a b : Int) : List Char :=
  (cs.drop a.toNat).take (b.toNat - a.toNat)

/-- One reasoning step (agent.py lines 25-32). The thought, action and
action_input fields hold arbitrary Python values read from decoded JSON, so
they are typed as Json, with Json.null standing for the Python None
defaults. The timestamp field is omitted: it is wall-clock I/O and no claim
mentions it. -/
structure AgentStep where
  step_number : Nat
  thought : Json
  action : Json
  action_input : Json
  observation : Option String

/-- The step produced when no JSON span is found or decoding fails
(agent.py lines 215-218): the whole raw reply becomes the thought and the
action and action_input keep their None dataclass defaults. -/
def rawStep (response : String) (n : Nat) : AgentStep :=
  { step_number := n
    thought := Json.str response
    action := Json.null
    action_input := Json.null
    observation := none }

/-- The step produced from a successfully decoded object
(agent.py lines 212-214). -/
def objStep (kvs : List (String × Json)) (n : Nat) : AgentStep :=
  { step_number := n
    thought := pyDictGet kvs "thought" (Json.str "")
    action := pyDictGet kvs "action" Json.null
    action_input := pyDictGet kvs "action_input" (Json.obj [])
    observation := none }

/-- Agent._parse_response (agent.py lines 199-220). The decode oracle stands
for json.loads restricted to the success case, returning the key-value pairs
of the decoded object; none stands for json.JSONDecodeError. The spans
handed to it always start with an opening brace and end with a closing
brace, and a JSON document starting with an opening brace can only decode
to an object, so the object-only oracle type loses no behaviour. -/
def parseResponse (decode : String → Option (List (String × Json)))
    (response : String) (n : Nat) : AgentStep :=
  let cs := response.toList
  let start := pyFind cs lbrace
  let fin := pyRFind cs rbrace + 1
  if start ≥ 0 ∧ fin > start then
    match decode (String.mk (pySlice cs start fin)) with
    | some kvs => objStep kvs n
    | none => rawStep response n
  else rawStep response n

/-- Written from the wording of the specification, for comparison with
parseResponse: the span from the first opening brace to the last closing
brace, when both exist and are in order. -/
def specSpan (response : String) : Option String :=
  let cs := response.toList
  match cs.findIdx? (fun x => x == lbrace), lastIdx cs rbrace with
  | some i, some j =>
      if i ≤ j then some (String.mk ((cs.drop i).take (j + 1 - i))) else none
  | _, _ => none

/-- State of the Ollama adapter (llm_engine.py lines 15-19) that the claims
touch: the model name (mutable, initialize may fall back) and the
availability flag. The httpx client and base url are transport handles. -/
structure OllamaState where
  model : String
  model_available : Bool

/-- State of the Gemini adapter (gemini_engine.py lines 18-22) that the
claims touch: the fixed model name string, the api key and the availability
flag. The constructed GenerativeModel handle is transport state. -/
structure GeminiState where
  model_name : String
  api_key : String
  model_available : Bool

/-- Python self.model.split over a colon, first component
(llm_engine.py line 31). -/
def colonHead (s : String) : String :=
  (s.splitOn ":").headD ""

/-- OllamaEngine.initialize (llm_engine.py lines 21-48). The network probe
is an oracle: none stands for an exception or a non-200 response (both
return False without touching the state), some names for the model list of
a 200 response. fallback is settings.fallback_model. -/
def ollamaInitialize (fallback : String) (probe : Option (List String))
    (st : OllamaState) : Bool × OllamaState :=
  match probe with
  | none => (false, st)
  | some names =>
      if names.contains st.model ∨
         (names.map colonHead).contains (colonHead st.model) then
        (true, { st with model_available := true })
      else if names.contains fallback then
        (true, { st with model := fallback, model_available := true })
      else
        (false, st)

/-- GeminiEngine.initialize (gemini_engine.py lines 24-41). keyNow is the
key re-read from settings or the environment at call time; configOk is the
oracle for the genai.configure plus GenerativeModel calls succeeding. -/
def geminiInitialize (keyNow : String) (configOk : Bool)
    (st : GeminiState) : Bool × GeminiState :=
  let st1 := { st with api_key := keyNow }
  if keyNow = "" then (false, st1)
  else if configOk then (true, { st1 with model_available := true })
  else (false, st1)

/-- Which adapter the router currently delegates to. -/
inductive EngineSel where
  | ollama : EngineSel
  | gemini : EngineSel
deriving DecidableEq

/-- State of the LLMEngine router (llm_engine.py lines 121-127): both
adapter states, the mode string, the active adapter and the externally
reported model identifier. -/
structure LLMEngineState where
  ollama : OllamaState
  gemini : GeminiState
  mode : String
  active_engine : EngineSel
  model : String
  model_available : Bool

/-- Oracle inputs consumed by one switch_mode call. -/
structure SwitchOracles where
  geminiKeyNow : String
  geminiConfigOk : Bool
  ollamaProbe : Option (List String)
  fallbackModel : String

/-- LLMEngine.switch_mode (llm_engine.py lines 156-175). The spec names the
modes local and remote; the code spells them as the strings offline and
online. Only on a successful initialize of the target adapter are the mode,
the active adapter and the model identifier swapped; otherwise they are
left untouched (the target adapter substate may still record the attempt,
for example the re-read Gemini api key). -/
def switchMode (o : SwitchOracles) (st : LLMEngineState) (mode : String) :
    Bool × LLMEngineState :=
  if mode = "online" then
    let r := geminiInitialize o.geminiKeyNow o.geminiConfigOk st.gemini
    if r.fst then
      (true, { st with gemini := r.snd, mode := "online",
                       active_engine := EngineSel.gemini,
                       model := r.snd.model_name })
    else
      (false, { st with gemini := r.snd })
  else if mode = "offline" then
    let r := ollamaInitialize o.fallbackModel o.ollamaProbe st.ollama
    if r.fst then
      (true, { st with ollama := r.snd, mode := "offline",
                       active_engine := EngineSel.ollama,
                       model := r.snd.model })
    else
      (false, { st with ollama := r.snd })
  else
    (false, st)

/-- AgentState (agent.py lines 16-22). -/
inductive AgentState where
  | idle : AgentState
  | thinking : AgentState
  | acting : AgentState
  | waiting : AgentState
  | completed : AgentState
  | error : AgentState
deriving DecidableEq

/-- AgentTask (agent.py lines 35-45). The task_id (a fresh uuid), the
context payload and the two timestamps are omitted: they are I/O values
that no claim mentions; the context is consumed only while building the
system prompt, which is folded into the provider oracle below. -/
structure AgentTask where
  description : String
  steps : List AgentStep
  state : AgentState
  result : Option Json
  error : Option String

/-- Agent.stop (agent.py lines 256-260): flip the current task to error
with the fixed cancellation reason. -/
def stopTask (t : AgentTask) : AgentTask :=
  { t with state := AgentState.error, error := some "Task cancelled by user" }

/-- Escape for the JSON encoder: quote and backslash. Control-character
escaping is omitted; no claim depends on the encoded text of a transcript
entry, only on which entries are appended. -/
def escJson (s : String) : String :=
  String.join (s.toList.map (fun c =>
    if c == Char.ofNat 34 then "\\\x22"
    else if c == Char.ofNat 92 then "\\\\"
    else String.singleton c))

mutual

/-- json.dumps with the default separators, used for the Action Input part
of a transcript entry (agent.py line 187). -/
def jsonDumps : Json → String
  | Json.null => "null"
  | Json.bool true => "true"
  | Json.bool false => "false"
  | Json.num n => toString n
  | Json.str s => "\x22" ++ escJson s ++ "\x22"
  | Json.arr xs => "[" ++ jsonDumpsList xs ++ "]"
  | Json.obj kvs => "\x7b" ++ jsonDumpsObj kvs ++ "\x7d"

/-- Comma-joined encodings of the elements of a JSON array. -/
def jsonDumpsList : List Json → String
  | [] => ""
  | [x] => jsonDumps x
  | x :: y :: xs => jsonDumps x ++ ", " ++ jsonDumpsList (y :: xs)

/-- Comma-joined key-value encodings of the members of a JSON object. -/
def jsonDumpsObj : List (String × Json) → String
  | [] => ""
  | [kv] => "\x22" ++ escJson kv.fst ++ "\x22: " ++ jsonDumps kv.snd
  | kv :: kw :: kvs =>
      "\x22" ++ escJson kv.fst ++ "\x22: " ++ jsonDumps kv.snd ++ ", " ++
        jsonDumpsObj (kw :: kvs)

end

mutual

/-- Python repr of a decoded JSON value, used for values nested inside a
container rendered by str. String escaping inside repr is omitted; no
claim depends on it. -/
def pyRepr : Json → String
  | Json.null => "None"
  | Json.bool true => "True"
  | Json.bool false => "False"
  | Json.num n => toString n
  | Json.str s => "\x27" ++ s ++ "\x27"
  | Json.arr xs => "[" ++ pyReprList xs ++ "]"
  | Json.obj kvs => "\x7b" ++ pyReprObj kvs ++ "\x7d"

/-- Comma-joined reprs of the elements of a list. -/
def pyReprList : List Json → String
  | [] => ""
  | [x] => pyRepr x
  | x :: y :: xs => pyRepr x ++ ", " ++ pyReprList (y :: xs)

/-- Comma-joined key-value reprs of the members of a dict. -/
def pyReprObj : List (String × Json) → String
  | [] => ""
  | [kv] => "\x27" ++ kv.fst ++ "\x27: " ++ pyRepr kv.snd
  | kv :: kw :: kvs =>
      "\x27" ++ kv.fst ++ "\x27: " ++ pyRepr kv.snd ++ ", " ++
        pyReprObj (kw :: kvs)

end

/-- Python str of a decoded JSON value, used by the f-strings at agent.py
lines 183 and 187: a top-level string prints bare, containers print via
repr. -/
def pyStr : Json → String
  | Json.str s => s
  | v => pyRepr v

/-- The observation recorded when the tool executor raises
(agent.py line 183). -/
def execErrorMsg (action : Json) (e : String) : String :=
  "Error executing " ++ pyStr action ++ ": " ++ e

/-- The corrective transcript entry appended when the parsed action is None
(agent.py line 191). -/
def correctiveMsg : String :=
  "Your response wasn\x27t valid JSON. Please respond with proper JSON format."

/-- The transcript entry recording an executed step (agent.py line 187);
at this point the observation is always set. -/
def stepRecord (n : Nat) (stp : AgentStep) : String :=
  "Step " ++ toString n ++ ":\nThought: " ++ pyStr stp.thought ++
    "\nAction: " ++ pyStr stp.action ++
    "\nAction Input: " ++ jsonDumps stp.action_input ++
    "\nObservation: " ++ (match stp.observation with
                          | some o => o
                          | none => "None")

/-- The final error text when the budget is exhausted
(agent.py line 195). -/
def maxStepsMsg : String :=
  "Max steps reached without completing task"

/-- Environment of one run: the external collaborators as oracles.
gen is the provider behind llm_engine.generate, indexed by the step number
so that a reply may differ across steps even when the prompt repeats; the
system prompt, built once per task from the context, is a fixed second
input of the real call and is folded into the oracle. decode is json.loads
as in parseResponse. execTool is the injected tool executor
(none when unset); Except.error stands for a raised exception, Except.ok
for the json.dumps of the returned result. onStep is the optional per-step
callback; some message stands for a raised exception. stopAfterGen n is
true when the host calls Agent.stop at the suspension point right after
the provider call of step n returns, the checkpoint the spec names. -/
structure Env where
  gen : Nat → String → String
  decode : String → Option (List (String × Json))
  execTool : Option (Nat → Json → Json → Except String String)
  onStep : Option (AgentStep → Option String)
  stopAfterGen : Nat → Bool

/-- Mutable state threaded through the loop of Agent.run: the task, the
messages transcript and the number of provider calls made so far. -/
structure RunSt where
  task : AgentTask
  messages : List String
  calls : Nat

/-- Outcome of the per-step callback at agent.py lines 165-166: the
exception message when the callback is set and raises. -/
def envCallback (env : Env) (stp : AgentStep) : Option String :=
  match env.onStep with
  | some cb => cb stp
  | none => none

/-- The prompt of one iteration (agent.py line 151): the joined transcript. -/
def stepPrompt (st : RunSt) : String :=
  String.intercalate "\n\n" st.messages

/-- The provider reply of one iteration (agent.py lines 154-159). -/
def stepResponse (env : Env) (st : RunSt) (n : Nat) : String :=
  env.gen n (stepPrompt st)

/-- The parsed step of one iteration (agent.py line 162). -/
def stepParsed (env : Env) (st : RunSt) (n : Nat) : AgentStep :=
  parseResponse env.decode (stepResponse env st n) n

/-- The task as it stands right before the terminal-action check of one
iteration: line 148 resets the state to thinking, and when the host calls
Agent.stop at the suspension point after the provider call returns, the
stop lands here and flips the task to error with the cancellation reason. -/
def stepTask1 (env : Env) (st : RunSt) (n : Nat) : AgentTask :=
  if env.stopAfterGen n then
    stopTask { st.task with state := AgentState.thinking }
  else
    { st.task with state := AgentState.thinking }

/-- Agent.run lines 176-187 when the action is not executed (falsy action,
for example None after a parse failure, or no executor set): the step is
appended untouched and no transcript entry is recorded. -/
def noExecResult (st : RunSt) (task1 : AgentTask) (step0 : AgentStep) :
    AgentTask × List String :=
  ({ task1 with steps := task1.steps ++ [step0] }, st.messages)

/-- Agent.run lines 176-187: when the parsed action is truthy and an
executor is set, the state becomes acting, the executor runs, its outcome
or the caught exception text becomes the observation (an exception also
flips the state to error), and the step record joins the transcript. -/
def execResult (env : Env) (st : RunSt) (task1 : AgentTask)
    (step0 : AgentStep) : AgentTask × List String :=
  match env.execTool with
  | none => noExecResult st task1 step0
  | some ex =>
      if step0.action.truthy then
        match ex step0.step_number step0.action
                (pyOr step0.action_input (Json.obj [])) with
        | Except.ok obs =>
            ({ task1 with
                state := AgentState.acting,
                steps := task1.steps ++
                  [{ step0 with observation := some obs }] },
             st.messages ++
               [stepRecord step0.step_number
                 { step0 with observation := some obs }])
        | Except.error e =>
            ({ task1 with
                state := AgentState.error,
                steps := task1.steps ++
                  [{ step0 with observation := some (execErrorMsg step0.action e) }] },
             st.messages ++
               [stepRecord step0.step_number
                 { step0 with observation := some (execErrorMsg step0.action e) }])
      else noExecResult st task1 step0

/-- Agent.run lines 176-191 for one iteration, after the terminal-action
check: the execution block followed by the corrective transcript entry when
the parsed action is None (lines 190-191). Never raises. -/
def execPhase (env : Env) (st : RunSt) (calls : Nat) (task1 : AgentTask)
    (step0 : AgentStep) : RunSt × Bool :=
  ({ task := (execResult env st task1 step0).fst
     messages :=
       if isPyNone step0.action then
         (execResult env st task1 step0).snd ++ [correctiveMsg]
       else
         (execResult env st task1 step0).snd
     calls := calls }, false)

/-- One iteration of the loop of Agent.run (agent.py lines 147-191).
The Bool is true when the iteration broke out on the terminal action.
Except.error models an exception escaping run: an uncaught exception of the
per-step callback (lines 165-166 have no try block), or the AttributeError
of action_input.get when the terminal action arrives with a non-dict
action_input (line 171). -/
def runStep (env : Env) (st : RunSt) (n : Nat) :
    Except String (RunSt × Bool) :=
  match envCallback env (stepParsed env st n) with
  | some e => Except.error e
  | none =>
      if isAnswerUser (stepParsed env st n).action then
        match (stepParsed env st n).action_input with
        | Json.obj kvs =>
            Except.ok
              ({ task := { stepTask1 env st n with
                    steps := (stepTask1 env st n).steps ++
                      [stepParsed env st n],
                    state := AgentState.completed,
                    result :=
                      some (pyDictGet kvs "message"
                        (Json.str "Task completed")) }
                 messages := st.messages
                 calls := st.calls + 1 }, true)
        | _ => Except.error "AttributeError: action_input has no attribute get"
      else
        Except.ok
          (execPhase env st (st.calls + 1) (stepTask1 env st n)
            (stepParsed env st n))

/-- The for loop of Agent.run, iterating runStep with the remaining budget. -/
def runLoop (env : Env) (st : RunSt) (stepNum : Nat) (remaining : Nat) :
    Except String RunSt :=
  match remaining with
  | 0 => Except.ok st
  | r + 1 =>
      match runStep env st stepNum with
      | Except.error e => Except.error e
      | Except.ok (st1, brk) =>
          if brk then Except.ok st1 else runLoop env st1 (stepNum + 1) r

/-- The task and transcript as built at the top of Agent.run
(agent.py lines 121-145): a fresh task in state thinking with no steps,
and the initial user-task transcript entry. -/
def initRunSt (taskDescription : String) : RunSt :=
  { task :=
      { description := taskDescription
        steps := []
        state := AgentState.thinking
        result := none
        error := none }
    messages :=
      ["User task: " ++ taskDescription ++
        "\n\nBegin by analyzing the page and planning your approach."]
    calls := 0 }

/-- Agent.run (agent.py lines 102-197): build the task and the initial
transcript, iterate up to maxSteps, then force state error with the
max-steps reason whenever the loop did not end completed
(lines 193-196, which overwrite any earlier error text). The returned Nat
is the number of provider calls made. -/
def agentRun (env : Env) (maxSteps : Nat) (taskDescription : String) :
    Except String (AgentTask × Nat) :=
  match runLoop env (initRunSt taskDescription) 1 maxSteps with
  | Except.error e => Except.error e
  | Except.ok st =>
      if st.task.state ≠ AgentState.completed then
        Except.ok ({ st.task with state := AgentState.error,
                                  error := some maxStepsMsg }, st.calls)
      else
        Except.ok (st.task, st.calls)

/-- A provider reply choosing the terminal action with a message parameter. -/
def replyAns : String :=
  "\x7b\x22action\x22:\x22answer_user\x22,\x22action_input\x22:\x7b\x22message\x22:\x22done\x22\x7d\x7d"

/-- The object json.loads produces from replyAns. -/
def kvsAns : List (String × Json) :=
  [("action", Json.str "answer_user"),
   ("action_input", Json.obj [("message", Json.str "done")])]

/-- Environment whose provider always sends replyAns; the decode oracle
mirrors json.loads on the only span it can receive. -/
def envA : Env :=
  { gen := fun _ _ => replyAns
    decode := fun s => if s = replyAns then some kvsAns else none
    execTool := none
    onStep := none
    stopAfterGen := fun _ => false }

/-- The step envA produces on step 1. -/
def stepA : AgentStep :=
  { step_number := 1
    thought := Json.str ""
    action := Json.str "answer_user"
    action_input := Json.obj [("message", Json.str "done")]
    observation := none }

/-- The task agentRun returns under envA. -/
def taskA : AgentTask :=
  { description := "t"
    steps := [stepA]
    state := AgentState.completed
    result := some (Json.str "done")
    error := none }

/-- Environment whose provider always replies with plain prose (no JSON). -/
def envB : Env :=
  { gen := fun _ _ => "hi"
    decode := fun _ => none
    execTool := none
    onStep := none
    stopAfterGen := fun _ => false }

/-- The task agentRun returns under envB with a budget of two. -/
def taskB : AgentTask :=
  { description := "t"
    steps := [rawStep "hi" 1, rawStep "hi" 2]
    state := AgentState.error
    result := none
    error := some maxStepsMsg }

/-- A provider reply choosing the terminal action with a null action_input;
json.loads maps it to a dict whose action_input value is None. -/
def replyNullInput : String :=
  "\x7b\x22action\x22:\x22answer_user\x22,\x22action_input\x22:null\x7d"

/-- Environment whose provider always sends replyNullInput; the decode
oracle mirrors json.loads on the only span it can receive. -/
def envX : Env :=
  { gen := fun _ _ => replyNullInput
    decode := fun s =>
      if s = replyNullInput then
        some [("action", Json.str "answer_user"), ("action_input", Json.null)]
      else none
    execTool := none
    onStep := none
    stopAfterGen := fun _ => false }

/-- envB with a per-step callback that always raises. -/
def envC7 : Env :=
  { envB with onStep := some (fun _ => some "boom") }

/-- envB with the host calling stop at the checkpoint right after the
provider call of step 1 returns. -/
def envC8 : Env :=
  { envB with stopAfterGen := fun n => n == 1 }

/-- A provider reply choosing a non-terminal action. -/
def replyClick : String := "\x7b\x22action\x22:\x22click\x22\x7d"

/-- The object json.loads produces from replyClick. -/
def kvsClick : List (String × Json) :=
  [("action", Json.str "click")]

/-- Environment whose provider always chooses the click action and whose
injected tool executor always raises. -/
def envC6 : Env :=
  { gen := fun _ _ => replyClick
    decode := fun s => if s = replyClick then some kvsClick else none
    execTool := some (fun _ _ _ => Except.error "boom")
    onStep := none
    stopAfterGen := fun _ => false }

/-- The step envC6 produces on step 1. -/
def stepC6 : AgentStep :=
  { step_number := 1
    thought := Json.str ""
    action := Json.str "click"
    action_input := Json.obj []
    observation := none }

/-- Switch oracles under which a switch to online fails: no api key. -/
def oraclesFail : SwitchOracles :=
  { geminiKeyNow := ""
    geminiConfigOk := false
    ollamaProbe := none
    fallbackModel := "llama3.2:1b" }

/-- A router state resting on the offline adapter. -/
def engine0 : LLMEngineState :=
  { ollama := { model := "qwen2.5:3b", model_available := true }
    gemini := { model_name := "gemini-2.0-flash-exp", api_key := "",
                model_available := false }
    mode := "offline"
    active_engine := EngineSel.ollama
    model := "qwen2.5:3b"
    model_available := true }

theorem parse_spec_bridge (d : String → Option (List (String × Json)))
    (r : String) (n : Nat) :
    parseResponse d r n =
      match specSpan r with
      | some sp =>
          match d sp with
          | some kvs => objStep kvs n
          | none => rawStep r n
      | none => rawStep r n := by
  simp only [parseResponse, specSpan]
  cases h1 : r.toList.findIdx? (fun x => x == lbrace) with
  | none =>
      cases h2 : lastIdx r.toList rbrace with
      | none => simp only [pyFind, pyRFind, h1, h2]; norm_num
      | some j => simp only [pyFind, pyRFind, h1, h2]; norm_num
  | some i =>
      cases h2 : lastIdx r.toList rbrace with
      | none =>
          simp only [pyFind, pyRFind, h1, h2]
          rw [if_neg (by omega)]
      | some j =>
          simp only [pyFind, pyRFind, h1, h2]
          by_cases hij : i ≤ j
          · rw [if_pos (by constructor <;> omega), if_pos hij]
            have e1 : ((i : Int)).toNat = i := by omega
            have e2 : ((j : Int) + 1).toNat = j + 1 := by omega
            simp only [pySlice, e1, e2]
          · rw [if_neg (by omega), if_neg hij]

theorem parseResponse_of_span_none (d : String → Option (List (String × Json)))
    (r : String) (n : Nat) (h : specSpan r = none) :
    parseResponse d r n = rawStep r n := by
  rw [parse_spec_bridge, h]

theorem parseResponse_of_decode_none (d : String → Option (List (String × Json)))
    (r sp : String) (n : Nat) (h1 : specSpan r = some sp) (h2 : d sp = none) :
    parseResponse d r n = rawStep r n := by
  rw [parse_spec_bridge, h1]
  show (match d sp with
        | some kvs => objStep kvs n
        | none => rawStep r n) = rawStep r n
  rw [h2]

theorem parseResponse_of_decode_some (d : String → Option (List (String × Json)))
    (r sp : String) (kvs : List (String × Json)) (n : Nat)
    (h1 : specSpan r = some sp) (h2 : d sp = some kvs) :
    parseResponse d r n = objStep kvs n := by
  rw [parse_spec_bridge, h1]
  show (match d sp with
        | some kvs => objStep kvs n
        | none => rawStep r n) = objStep kvs n
  rw [h2]

theorem parseResponse_cases (d : String → Option (List (String × Json)))
    (r : String) (n : Nat) :
    parseResponse d r n = rawStep r n ∨
    ∃ sp kvs, specSpan r = some sp ∧ d sp = some kvs ∧
      parseResponse d r n = objStep kvs n := by
  cases h1 : specSpan r with
  | none => exact Or.inl (parseResponse_of_span_none d r n h1)
  | some sp =>
      cases h2 : d sp with
      | none => exact Or.inl (parseResponse_of_decode_none d r sp n h1 h2)
      | some kvs =>
          exact Or.inr ⟨sp, kvs, rfl,
            h2, parseResponse_of_decode_some d r sp kvs n h1 h2⟩

theorem parseResponse_step_number (d : String → Option (List (String × Json)))
    (r : String) (n : Nat) : (parseResponse d r n).step_number = n := by
  rcases parseResponse_cases d r n with h | ⟨sp, kvs, _, _, h⟩ <;>
    rw [h] <;> rfl

theorem isAnswerUser_eq {v : Json} (h : isAnswerUser v = true) :
    v = Json.str "answer_user" := by
  cases v with
  | str s => rw [eq_of_beq (show (s == "answer_user") = true from h)]
  | null => exact Bool.noConfusion h
  | bool b => exact Bool.noConfusion h
  | num m => exact Bool.noConfusion h
  | arr xs => exact Bool.noConfusion h
  | obj kvs => exact Bool.noConfusion h

theorem pyLookup_dictGet {kvs : List (String × Json)} {k : String} {m : Json}
    (h : pyLookup kvs k = some m) (dflt : Json) :
    pyDictGet kvs k dflt = m := by
  unfold pyLookup at h
  unfold pyDictGet
  cases hf : kvs.find? (fun kv => kv.fst == k) with
  | none => rw [hf] at h; cases h
  | some kv => rw [hf] at h; cases h; rfl

theorem execResult_no_executor (env : Env) (st : RunSt) (task1 : AgentTask)
    (step0 : AgentStep) (hex : env.execTool = none) :
    execResult env st task1 step0 = noExecResult st task1 step0 := by
  unfold execResult; rw [hex]

theorem execResult_not_truthy (env : Env) (st : RunSt) (task1 : AgentTask)
    (step0 : AgentStep) (ex : Nat → Json → Json → Except String String)
    (hex : env.execTool = some ex) (htr : step0.action.truthy = false) :
    execResult env st task1 step0 = noExecResult st task1 step0 := by
  unfold execResult; rw [hex]
  show (if step0.action.truthy then _ else _) = _
  rw [htr]
  exact if_neg (by simp)

theorem execResult_ok (env : Env) (st : RunSt) (task1 : AgentTask)
    (step0 : AgentStep) (ex : Nat → Json → Json → Except String String)
    (obs : String) (hex : env.execTool = some ex)
    (htr : step0.action.truthy = true)
    (hcall : ex step0.step_number step0.action
      (pyOr step0.action_input (Json.obj [])) = Except.ok obs) :
    execResult env st task1 step0 =
      ({ task1 with
          state := AgentState.acting,
          steps := task1.steps ++ [{ step0 with observation := some obs }] },
       st.messages ++
         [stepRecord step0.step_number
           { step0 with observation := some obs }]) := by
  unfold execResult; rw [hex]
  show (if step0.action.truthy then _ else _) = _
  rw [htr, if_pos rfl, hcall]

theorem execResult_err (env : Env) (st : RunSt) (task1 : AgentTask)
    (step0 : AgentStep) (ex : Nat → Json → Json → Except String String)
    (e : String) (hex : env.execTool = some ex)
    (htr : step0.action.truthy = true)
    (hcall : ex step0.step_number step0.action
      (pyOr step0.action_input (Json.obj [])) = Except.error e) :
    execResult env st task1 step0 =
      ({ task1 with
          state := AgentState.error,
          steps := task1.steps ++
            [{ step0 with observation := some (execErrorMsg step0.action e) }] },
       st.messages ++
         [stepRecord step0.step_number
           { step0 with observation := some (execErrorMsg step0.action e) }]) := by
  unfold execResult; rw [hex]
  show (if step0.action.truthy then _ else _) = _
  rw [htr, if_pos rfl, hcall]

theorem execResult_shape (env : Env) (st : RunSt) (task1 : AgentTask)
    (step0 : AgentStep) :
    ∃ obs : Option String,
      (execResult env st task1 step0).fst.steps =
        task1.steps ++ [{ step0 with observation := obs }] ∧
      (execResult env st task1 step0).fst.description = task1.description ∧
      ((execResult env st task1 step0).fst.state = task1.state ∨
       (execResult env st task1 step0).fst.state = AgentState.acting ∨
       (execResult env st task1 step0).fst.state = AgentState.error) := by
  cases hex : env.execTool with
  | none =>
      rw [execResult_no_executor env st task1 step0 hex]
      exact ⟨step0.observation, by simp [noExecResult], rfl, Or.inl rfl⟩
  | some ex =>
      cases htr : step0.action.truthy with
      | false =>
          rw [execResult_not_truthy env st task1 step0 ex hex htr]
          exact ⟨step0.observation, by simp [noExecResult], rfl, Or.inl rfl⟩
      | true =>
          cases hcall : ex step0.step_number step0.action
              (pyOr step0.action_input (Json.obj [])) with
          | ok obs =>
              rw [execResult_ok env st task1 step0 ex obs hex htr hcall]
              exact ⟨some obs, rfl, rfl, Or.inr (Or.inl rfl)⟩
          | error e =>
              rw [execResult_err env st task1 step0 ex e hex htr hcall]
              exact ⟨some (execErrorMsg step0.action e), rfl, rfl,
                Or.inr (Or.inr rfl)⟩

theorem execPhase_shape (env : Env) (st : RunSt) (calls : Nat)
    (task1 : AgentTask) (step0 : AgentStep)
    (hc : task1.state ≠ AgentState.completed) :
    ∃ obs : Option String,
      (execPhase env st calls task1 step0).fst.task.steps =
        task1.steps ++ [{ step0 with observation := obs }] ∧
      (execPhase env st calls task1 step0).fst.calls = calls ∧
      (execPhase env st calls task1 step0).fst.task.description =
        task1.description ∧
      (execPhase env st calls task1 step0).fst.task.state ≠
        AgentState.completed ∧
      (execPhase env st calls task1 step0).snd = false := by
  obtain ⟨obs, hsteps, hdesc, hstate⟩ := execResult_shape env st task1 step0
  refine ⟨obs, ?_, rfl, ?_, ?_, rfl⟩
  · show (execResult env st task1 step0).fst.steps = _
    exact hsteps
  · show (execResult env st task1 step0).fst.description = _
    exact hdesc
  · show (execResult env st task1 step0).fst.state ≠ AgentState.completed
    rcases hstate with h | h | h <;> rw [h]
    · exact hc
    · intro hcon; cases hcon
    · intro hcon; cases hcon

theorem stepTask1_steps (env : Env) (st : RunSt) (n : Nat) :
    (stepTask1 env st n).steps = st.task.steps := by
  unfold stepTask1 stopTask
  split <;> rfl

theorem stepTask1_description (env : Env) (st : RunSt) (n : Nat) :
    (stepTask1 env st n).description = st.task.description := by
  unfold stepTask1 stopTask
  split <;> rfl

theorem stepTask1_not_completed (env : Env) (st : RunSt) (n : Nat) :
    (stepTask1 env st n).state ≠ AgentState.completed := by
  unfold stepTask1 stopTask
  split <;> intro h <;> cases h

theorem stepTask1_no_stop (env : Env) (st : RunSt) (n : Nat)
    (h : env.stopAfterGen n = false) :
    stepTask1 env st n = { st.task with state := AgentState.thinking } := by
  unfold stepTask1
  rw [h]
  exact if_neg (by simp)

theorem stepTask1_stop (env : Env) (st : RunSt) (n : Nat)
    (h : env.stopAfterGen n = true) :
    stepTask1 env st n =
      stopTask { st.task with state := AgentState.thinking } := by
  unfold stepTask1
  rw [h]
  exact if_pos rfl

theorem runStep_cb_raises (env : Env) (st : RunSt) (n : Nat) (e : String)
    (h : envCallback env (stepParsed env st n) = some e) :
    runStep env st n = Except.error e := by
  unfold runStep
  rw [h]

theorem runStep_answer (env : Env) (st : RunSt) (n : Nat)
    (kvs : List (String × Json))
    (hcb : envCallback env (stepParsed env st n) = none)
    (hans : isAnswerUser (stepParsed env st n).action = true)
    (hinp : (stepParsed env st n).action_input = Json.obj kvs) :
    runStep env st n =
      Except.ok
        ({ task := { stepTask1 env st n with
              steps := (stepTask1 env st n).steps ++ [stepParsed env st n],
              state := AgentState.completed,
              result :=
                some (pyDictGet kvs "message" (Json.str "Task completed")) }
           messages := st.messages
           calls := st.calls + 1 }, true) := by
  unfold runStep
  rw [hcb]
  show (if isAnswerUser (stepParsed env st n).action = true then _ else _) = _
  rw [hans, if_pos rfl, hinp]

theorem runStep_answer_crash (env : Env) (st : RunSt) (n : Nat)
    (hcb : envCallback env (stepParsed env st n) = none)
    (hans : isAnswerUser (stepParsed env st n).action = true)
    (hinp : ∀ kvs, (stepParsed env st n).action_input ≠ Json.obj kvs) :
    runStep env st n =
      Except.error "AttributeError: action_input has no attribute get" := by
  unfold runStep
  rw [hcb]
  show (if isAnswerUser (stepParsed env st n).action = true then _ else _) = _
  rw [hans, if_pos rfl]
  cases hai : (stepParsed env st n).action_input with
  | obj kvs => exact absurd hai (hinp kvs)
  | null => rfl
  | bool b => rfl
  | num m => rfl
  | str s => rfl
  | arr xs => rfl

theorem runStep_exec (env : Env) (st : RunSt) (n : Nat)
    (hcb : envCallback env (stepParsed env st n) = none)
    (hans : isAnswerUser (stepParsed env st n).action = false) :
    runStep env st n =
      Except.ok
        (execPhase env st (st.calls + 1) (stepTask1 env st n)
          (stepParsed env st n)) := by
  unfold runStep
  rw [hcb]
  show (if isAnswerUser (stepParsed env st n).action = true then _ else _) = _
  rw [hans]
  exact if_neg (by simp)

theorem json_obj_or_not (v : Json) :
    (∃ kvs, v = Json.obj kvs) ∨ (∀ kvs, v ≠ Json.obj kvs) := by
  cases v with
  | obj kvs => exact Or.inl ⟨kvs, rfl⟩
  | null => exact Or.inr (fun kvs h => Json.noConfusion h)
  | bool b => exact Or.inr (fun kvs h => Json.noConfusion h)
  | num m => exact Or.inr (fun kvs h => Json.noConfusion h)
  | str s => exact Or.inr (fun kvs h => Json.noConfusion h)
  | arr xs => exact Or.inr (fun kvs h => Json.noConfusion h)

theorem runStep_shape (env : Env) (st : RunSt) (n : Nat) (st1 : RunSt)
    (brk : Bool) (h : runStep env st n = Except.ok (st1, brk)) :
    ∃ stp : AgentStep,
      st1.task.steps = st.task.steps ++ [stp] ∧
      st1.calls = st.calls + 1 ∧
      st1.task.description = st.task.description ∧
      (brk = true →
        isAnswerUser stp.action = true ∧
        st1.task.state = AgentState.completed ∧
        ∃ kvs, stp.action_input = Json.obj kvs ∧
          st1.task.result =
            some (pyDictGet kvs "message" (Json.str "Task completed"))) ∧
      (brk = false →
        isAnswerUser stp.action = false ∧
        st1.task.state ≠ AgentState.completed) := by
  cases hcb : envCallback env (stepParsed env st n) with
  | some e =>
      rw [runStep_cb_raises env st n e hcb] at h
      exact Except.noConfusion h
  | none =>
      cases hans : isAnswerUser (stepParsed env st n).action with
      | true =>
          rcases json_obj_or_not (stepParsed env st n).action_input with
            ⟨kvs, hai⟩ | hnot
          · rw [runStep_answer env st n kvs hcb hans hai] at h
            injection h with h3
            injection h3 with h4 h5
            subst h4
            subst h5
            refine ⟨stepParsed env st n, ?_, rfl, ?_, ?_, ?_⟩
            · show (stepTask1 env st n).steps ++ [stepParsed env st n] = _
              rw [stepTask1_steps]
            · show (stepTask1 env st n).description = _
              rw [stepTask1_description]
            · intro _
              exact ⟨hans, rfl, kvs, hai, rfl⟩
            · intro hfalse
              exact Bool.noConfusion hfalse
          · rw [runStep_answer_crash env st n hcb hans hnot] at h
            exact Except.noConfusion h
      | false =>
          rw [runStep_exec env st n hcb hans] at h
          injection h with h3
          have h4 := congrArg Prod.fst h3
          have h5 := congrArg Prod.snd h3
          simp only at h4 h5
          subst h4
          obtain ⟨obs, hsteps, hcalls, hdesc, hstate, _⟩ :=
            execPhase_shape env st (st.calls + 1) (stepTask1 env st n)
              (stepParsed env st n) (stepTask1_not_completed env st n)
          refine ⟨{ stepParsed env st n with observation := obs },
            ?_, hcalls, ?_, ?_, ?_⟩
          · rw [hsteps, stepTask1_steps]
          · rw [hdesc, stepTask1_description]
          · intro htrue
            rw [← h5] at htrue
            exact Bool.noConfusion htrue
          · intro _
            exact ⟨hans, hstate⟩

theorem runLoop_growth (env : Env) (r : Nat) :
    ∀ (st : RunSt) (n : Nat) (st' : RunSt),
      runLoop env st n r = Except.ok st' →
      ∃ j, j ≤ r ∧ st'.calls = st.calls + j ∧
        st'.task.steps.length = st.task.steps.length + j ∧
        st'.task.description = st.task.description := by
  induction r with
  | zero =>
      intro st n st' h
      replace h : Except.ok st = Except.ok st' := h
      injection h with h1
      subst h1
      exact ⟨0, Nat.zero_le 0, rfl, rfl, rfl⟩
  | succ r ih =>
      intro st n st' h
      unfold runLoop at h
      cases hs : runStep env st n with
      | error e =>
          rw [hs] at h
          exact Except.noConfusion h
      | ok p =>
          obtain ⟨st1, brk⟩ := p
          rw [hs] at h
          obtain ⟨stp, hsteps, hcalls, hdesc, _, _⟩ :=
            runStep_shape env st n st1 brk hs
          cases brk with
          | true =>
              replace h : Except.ok st1 = Except.ok st' := h
              injection h with h1
              subst h1
              refine ⟨1, by omega, by rw [hcalls], ?_, hdesc⟩
              rw [hsteps]
              simp
          | false =>
              replace h : runLoop env st1 (n + 1) r = Except.ok st' := h
              obtain ⟨j, hj, hc, hl, hd⟩ := ih st1 (n + 1) st' h
              refine ⟨j + 1, by omega, ?_, ?_, by rw [hd, hdesc]⟩
              · rw [hc, hcalls]
                omega
              · rw [hl, hsteps]
                simp
                omega

theorem runLoop_no_answer (env : Env) (r : Nat) :
    ∀ (st : RunSt) (n : Nat) (st' : RunSt),
      runLoop env st n r = Except.ok st' →
      (∀ s ∈ st'.task.steps, isAnswerUser s.action = false) →
      st.task.state ≠ AgentState.completed →
      st'.task.steps.length = st.task.steps.length + r ∧
      st'.task.state ≠ AgentState.completed := by
  induction r with
  | zero =>
      intro st n st' h hno hst
      replace h : Except.ok st = Except.ok st' := h
      injection h with h1
      subst h1
      exact ⟨rfl, hst⟩
  | succ r ih =>
      intro st n st' h hno hst
      unfold runLoop at h
      cases hs : runStep env st n with
      | error e =>
          rw [hs] at h
          exact Except.noConfusion h
      | ok p =>
          obtain ⟨st1, brk⟩ := p
          rw [hs] at h
          obtain ⟨stp, hsteps, hcalls, hdesc, hbt, hbf⟩ :=
            runStep_shape env st n st1 brk hs
          cases brk with
          | true =>
              replace h : Except.ok st1 = Except.ok st' := h
              injection h with h1
              subst h1
              obtain ⟨hansw, _, _⟩ := hbt rfl
              have hmem : stp ∈ st1.task.steps := by
                rw [hsteps]
                simp
              rw [hno stp hmem] at hansw
              exact Bool.noConfusion hansw
          | false =>
              replace h : runLoop env st1 (n + 1) r = Except.ok st' := h
              obtain ⟨_, hnc⟩ := hbf rfl
              obtain ⟨hlen, hst'⟩ := ih st1 (n + 1) st' h hno hnc
              refine ⟨?_, hst'⟩
              rw [hlen, hsteps]
              simp
              omega

theorem runLoop_answer_props (env : Env) (r : Nat) :
    ∀ (st : RunSt) (n : Nat) (st' : RunSt),
      runLoop env st n r = Except.ok st' →
      (∀ s ∈ st.task.steps, isAnswerUser s.action = false) →
      ∀ (i : Nat) (s : AgentStep), st'.task.steps[i]? = some s →
        isAnswerUser s.action = true →
        i + 1 = st'.task.steps.length ∧
        st'.task.state = AgentState.completed ∧
        ∃ kvs, s.action_input = Json.obj kvs ∧
          st'.task.result =
            some (pyDictGet kvs "message" (Json.str "Task completed")) := by
  induction r with
  | zero =>
      intro st n st' h hno i s hi hans
      replace h : Except.ok st = Except.ok st' := h
      injection h with h1
      subst h1
      rw [hno s (List.getElem?_mem hi)] at hans
      exact Bool.noConfusion hans
  | succ r ih =>
      intro st n st' h hno i s hi hans
      unfold runLoop at h
      cases hs : runStep env st n with
      | error e =>
          rw [hs] at h
          exact Except.noConfusion h
      | ok p =>
          obtain ⟨st1, brk⟩ := p
          rw [hs] at h
          obtain ⟨stp, hsteps, hcalls, hdesc, hbt, hbf⟩ :=
            runStep_shape env st n st1 brk hs
          cases brk with
          | true =>
              replace h : Except.ok st1 = Except.ok st' := h
              injection h with h1
              subst h1
              obtain ⟨hansw, hcompleted, kvs, hkvs, hres⟩ := hbt rfl
              rw [hsteps] at hi
              rcases Nat.lt_or_ge i st.task.steps.length with hlt | hge
              · rw [List.getElem?_append_left hlt] at hi
                rw [hno s (List.getElem?_mem hi)] at hans
                exact Bool.noConfusion hans
              · rw [List.getElem?_append_right hge] at hi
                cases hk : i - st.task.steps.length with
                | zero =>
                    rw [hk] at hi
                    replace hi : some stp = some s := hi
                    injection hi with hse
                    subst hse
                    refine ⟨?_, hcompleted, kvs, hkvs, hres⟩
                    rw [hsteps]
                    simp
                    omega
                | succ k =>
                    rw [hk] at hi
                    replace hi : (none : Option AgentStep) = some s := hi
                    exact Option.noConfusion hi
          | false =>
              replace h : runLoop env st1 (n + 1) r = Except.ok st' := h
              obtain ⟨hstp, _⟩ := hbf rfl
              refine ih st1 (n + 1) st' h ?_ i s hi hans
              intro s2 hs2
              rw [hsteps] at hs2
              rcases List.mem_append.mp hs2 with hs2 | hs2
              · exact hno s2 hs2
              · rw [List.mem_singleton.mp hs2]
                exact hstp

theorem runStep_total (env : Env)
    (hcb : ∀ s, envCallback env s = none)
    (hdec : ∀ sp kvs, env.decode sp = some kvs →
      pyDictGet kvs "action" Json.null = Json.str "answer_user" →
      ∃ kvs2, pyDictGet kvs "action_input" (Json.obj []) = Json.obj kvs2)
    (st : RunSt) (n : Nat) :
    ∃ out, runStep env st n = Except.ok out := by
  cases hans : isAnswerUser (stepParsed env st n).action with
  | false => exact ⟨_, runStep_exec env st n (hcb _) hans⟩
  | true =>
      rcases parseResponse_cases env.decode (stepResponse env st n) n with
        hp | ⟨sp, kvs, hsp, hd, hp⟩
      · have hraw : isAnswerUser (stepParsed env st n).action = false := by
          unfold stepParsed
          rw [hp]
          rfl
        rw [hans] at hraw
        exact Bool.noConfusion hraw
      · have hobj : stepParsed env st n = objStep kvs n := by
          unfold stepParsed
          exact hp
        have hact : pyDictGet kvs "action" Json.null = Json.str "answer_user" := by
          have h2 := isAnswerUser_eq (v := (stepParsed env st n).action) hans
          rw [hobj] at h2
          exact h2
        obtain ⟨kvs2, hinp⟩ := hdec sp kvs hd hact
        have hai : (stepParsed env st n).action_input = Json.obj kvs2 := by
          rw [hobj]
          exact hinp
        exact ⟨_, runStep_answer env st n kvs2 (hcb _) hans hai⟩

theorem runLoop_total (env : Env)
    (hcb : ∀ s, envCallback env s = none)
    (hdec : ∀ sp kvs, env.decode sp = some kvs →
      pyDictGet kvs "action" Json.null = Json.str "answer_user" →
      ∃ kvs2, pyDictGet kvs "action_input" (Json.obj []) = Json.obj kvs2)
    (r : Nat) :
    ∀ (st : RunSt) (n : Nat), ∃ st', runLoop env st n r = Except.ok st' := by
  induction r with
  | zero => intro st n; exact ⟨st, rfl⟩
  | succ r ih =>
      intro st n
      obtain ⟨⟨st1, brk⟩, hs⟩ := runStep_total env hcb hdec st n
      cases brk with
      | true =>
          refine ⟨st1, ?_⟩
          unfold runLoop
          rw [hs]
          exact rfl
      | false =>
          obtain ⟨st', h'⟩ := ih st1 (n + 1)
          refine ⟨st', ?_⟩
          unfold runLoop
          rw [hs]
          exact h'

theorem agentRun_inv (env : Env) (N : Nat) (d : String) (t : AgentTask)
    (c : Nat) (h : agentRun env N d = Except.ok (t, c)) :
    ∃ st', runLoop env (initRunSt d) 1 N = Except.ok st' ∧
      c = st'.calls ∧ t.steps = st'.task.steps ∧
      ((st'.task.state ≠ AgentState.completed ∧
        t = { st'.task with state := AgentState.error,
                            error := some maxStepsMsg }) ∨
       (st'.task.state = AgentState.completed ∧ t = st'.task)) := by
  unfold agentRun at h
  cases hl : runLoop env (initRunSt d) 1 N with
  | error e =>
      rw [hl] at h
      exact Except.noConfusion h
  | ok st' =>
      rw [hl] at h
      replace h : (if st'.task.state ≠ AgentState.completed then
          Except.ok ({ st'.task with
                        state := AgentState.error,
                        error := some maxStepsMsg }, st'.calls)
        else Except.ok (st'.task, st'.calls)) = Except.ok (t, c) := h
      by_cases hc : st'.task.state = AgentState.completed
      · rw [if_neg (not_not_intro hc)] at h
        injection h with h1
        injection h1 with h2 h3
        subst h2
        subst h3
        exact ⟨st', rfl, rfl, rfl, Or.inr ⟨hc, rfl⟩⟩
      · rw [if_pos hc] at h
        injection h with h1
        injection h1 with h2 h3
        subst h2
        subst h3
        exact ⟨st', rfl, rfl, rfl, Or.inl ⟨hc, rfl⟩⟩

theorem runLoop_cont (env : Env) (st st1 : RunSt) (n r : Nat)
    (h : runStep env st n = Except.ok (st1, false)) :
    runLoop env st n (r + 1) = runLoop env st1 (n + 1) r := by
  show (match runStep env st n with
        | Except.error e => Except.error e
        | Except.ok (st2, brk) =>
            if brk then Except.ok st2 else runLoop env st2 (n + 1) r) =
      runLoop env st1 (n + 1) r
  rw [h]
  exact rfl

theorem geminiInitialize_model_name (keyNow : String) (configOk : Bool)
    (g : GeminiState) :
    (geminiInitialize keyNow configOk g).snd.model_name = g.model_name := by
  simp only [geminiInitialize]
  by_cases hk : keyNow = ""
  · rw [if_pos hk]
  · rw [if_neg hk]
    cases configOk with
    | false => rw [if_neg (by simp)]
    | true => rw [if_pos rfl]

/-- Claim C4: for every raw model reply, the parser takes the span from the
first opening brace to the last closing brace; if both exist (in order) and
that span decodes as a well-formed JSON object, the thought, action and
action_input of the step are read from the thought, action and action_input
fields of the object, with missing fields defaulted (empty thought, unset
action, empty parameters); if no such span exists or decoding fails, the
entire raw reply becomes the thought and the action is left unset. -/
theorem claim_c4_parse_algorithm (d : String → Option (List (String × Json)))
    (r : String) (n : Nat) :
    (specSpan r = none → parseResponse d r n = rawStep r n) ∧
    (∀ sp, specSpan r = some sp → d sp = none →
      parseResponse d r n = rawStep r n) ∧
    (∀ sp kvs, specSpan r = some sp → d sp = some kvs →
      parseResponse d r n = objStep kvs n) :=
  ⟨fun h => parseResponse_of_span_none d r n h,
   fun sp h1 h2 => parseResponse_of_decode_none d r sp n h1 h2,
   fun sp kvs h1 h2 => parseResponse_of_decode_some d r sp kvs n h1 h2⟩

/-- Witness for C4 at concrete inputs: the terminal reply of envA decodes
into its object step, and a brace-free reply parses into a raw step. -/
theorem claim_c4_parse_algorithm_witness :
    parseResponse envA.decode replyAns 1 = objStep kvsAns 1 ∧
    parseResponse envB.decode "hi" 1 = rawStep "hi" 1 :=
  ⟨(claim_c4_parse_algorithm envA.decode replyAns 1).2.2 replyAns kvsAns (by rfl)
      (by rfl),
   (claim_c4_parse_algorithm envB.decode "hi" 1).1 (by rfl)⟩

/-- Claim C5: for every target mode, switch_mode attempts to initialize the
target adapter and swaps the active adapter and mode only on success,
returning true; on initialization failure (or an unrecognized mode) it
returns false and leaves the mode, the active adapter and the model
identifier exactly as they were before the call. -/
theorem claim_c5_switch_mode (o : SwitchOracles) (st : LLMEngineState)
    (mode : String) :
    ((switchMode o st mode).fst = false →
      (switchMode o st mode).snd.mode = st.mode ∧
      (switchMode o st mode).snd.active_engine = st.active_engine ∧
      (switchMode o st mode).snd.model = st.model) ∧
    ((switchMode o st mode).fst = true →
      (mode = "online" ∧ (switchMode o st mode).snd.mode = "online" ∧
        (switchMode o st mode).snd.active_engine = EngineSel.gemini ∧
        (switchMode o st mode).snd.model = st.gemini.model_name) ∨
      (mode = "offline" ∧ (switchMode o st mode).snd.mode = "offline" ∧
        (switchMode o st mode).snd.active_engine = EngineSel.ollama ∧
        (switchMode o st mode).snd.model =
          (switchMode o st mode).snd.ollama.model)) := by
  simp only [switchMode]
  by_cases hon : mode = "online"
  · subst hon
    rw [if_pos rfl]
    rcases hg : geminiInitialize o.geminiKeyNow o.geminiConfigOk st.gemini
      with ⟨ok, g⟩
    have hmn : g.model_name = st.gemini.model_name := by
      have h2 := geminiInitialize_model_name o.geminiKeyNow o.geminiConfigOk
        st.gemini
      rw [hg] at h2
      exact h2
    cases ok with
    | true =>
        refine ⟨fun hf => Bool.noConfusion hf,
          fun _ => Or.inl ⟨rfl, rfl, rfl, hmn⟩⟩
    | false =>
        exact ⟨fun _ => ⟨rfl, rfl, rfl⟩, fun ht => Bool.noConfusion ht⟩
  · rw [if_neg hon]
    by_cases hoff : mode = "offline"
    · subst hoff
      rw [if_pos rfl]
      rcases hg : ollamaInitialize o.fallbackModel o.ollamaProbe st.ollama
        with ⟨ok, ol⟩
      cases ok with
      | true =>
          refine ⟨fun hf => Bool.noConfusion hf,
            fun _ => Or.inr ⟨rfl, rfl, rfl, rfl⟩⟩
      | false =>
          exact ⟨fun _ => ⟨rfl, rfl, rfl⟩, fun ht => Bool.noConfusion ht⟩
    · rw [if_neg hoff]
      exact ⟨fun _ => ⟨rfl, rfl, rfl⟩, fun ht => Bool.noConfusion ht⟩

/-- Witness for C5: a switch to online with no api key fails and leaves the
mode, the active adapter and the model identifier untouched. -/
theorem claim_c5_switch_mode_witness :
    (switchMode oraclesFail engine0 "online").snd.mode = engine0.mode ∧
    (switchMode oraclesFail engine0 "online").snd.active_engine =
      engine0.active_engine ∧
    (switchMode oraclesFail engine0 "online").snd.model = engine0.model :=
  (claim_c5_switch_mode oraclesFail engine0 "online").1 (by rfl)

/-- Claim C10: whenever run returns a task in state error, its error text
is exactly the max-steps message: the final check at agent.py lines 193-196
overwrites any earlier error text (a tool-failure error state was reset to
thinking at the start of the next step, and a cancellation reason written
by stop is overwritten here). -/
theorem claim_c10_error_text (env : Env) (N : Nat) (d : String)
    (t : AgentTask) (c : Nat)
    (hrun : agentRun env N d = Except.ok (t, c))
    (herr : t.state = AgentState.error) :
    t.error = some maxStepsMsg := by
  obtain ⟨st', hl, hc, hsteps, hcase⟩ := agentRun_inv env N d t c hrun
  rcases hcase with ⟨hnc, ht⟩ | ⟨hcomp, ht⟩
  · rw [ht]
  · rw [ht] at herr
    rw [hcomp] at herr
    exact AgentState.noConfusion herr

/-- Witness for C10: the envB run ends in state error and its error text is
the max-steps message. -/
theorem claim_c10_error_text_witness : taskB.error = some maxStepsMsg :=
  claim_c10_error_text envB 2 "t" taskB 2 (by rfl) (by rfl)

/-- Claim C3: when no parsed action within the budget is the terminal
action, the returned task is in state error with the max-steps reason and
holds exactly N steps. -/
theorem claim_c3_budget_exhausted (env : Env) (N : Nat) (d : String)
    (t : AgentTask) (c : Nat)
    (hrun : agentRun env N d = Except.ok (t, c))
    (hno : ∀ s ∈ t.steps, isAnswerUser s.action = false) :
    t.state = AgentState.error ∧ t.error = some maxStepsMsg ∧
    t.steps.length = N := by
  obtain ⟨st', hl, hc, hsteps, hcase⟩ := agentRun_inv env N d t c hrun
  have hno' : ∀ s ∈ st'.task.steps, isAnswerUser s.action = false := by
    intro s hs
    refine hno s ?_
    rw [hsteps]
    exact hs
  have hinit : (initRunSt d).task.state ≠ AgentState.completed := by
    intro hh
    cases hh
  obtain ⟨hlen, hnc2⟩ :=
    runLoop_no_answer env N (initRunSt d) 1 st' hl hno' hinit
  have h00 : (initRunSt d).task.steps.length = 0 := rfl
  rcases hcase with ⟨_, ht⟩ | ⟨hcomp, _⟩
  · subst ht
    refine ⟨rfl, rfl, ?_⟩
    show st'.task.steps.length = N
    omega
  · exact absurd hcomp hnc2

/-- Witness for C3: the envB run with budget two ends in error with the
max-steps reason and exactly two steps. -/
theorem claim_c3_budget_exhausted_witness :
    taskB.state = AgentState.error ∧ taskB.error = some maxStepsMsg ∧
    taskB.steps.length = 2 :=
  claim_c3_budget_exhausted envB 2 "t" taskB 2 (by rfl) (by decide)

/-- Claim C2: when the parsed action of step k is the terminal action
answer_user, the returned task is completed, its result is the message
parameter of the terminal action, exactly k steps exist, and no provider
call beyond the k-th occurred. -/
theorem claim_c2_terminal_action (env : Env) (N : Nat) (d : String)
    (t : AgentTask) (c : Nat) (i : Nat) (s : AgentStep)
    (kvs : List (String × Json)) (m : Json)
    (hrun : agentRun env N d = Except.ok (t, c))
    (hstep : t.steps[i]? = some s)
    (hans : isAnswerUser s.action = true)
    (hinp : s.action_input = Json.obj kvs)
    (hmsg : pyLookup kvs "message" = some m) :
    t.state = AgentState.completed ∧ t.result = some m ∧
    t.steps.length = i + 1 ∧ c = i + 1 := by
  obtain ⟨st', hl, hc, hsteps, hcase⟩ := agentRun_inv env N d t c hrun
  have hstep' : st'.task.steps[i]? = some s := by
    rw [← hsteps]
    exact hstep
  have hinit : ∀ s2 ∈ (initRunSt d).task.steps,
      isAnswerUser s2.action = false := by
    intro s2 hs2
    cases hs2
  obtain ⟨hi1, hcomp, kvs2, hkvs2, hres⟩ :=
    runLoop_answer_props env N (initRunSt d) 1 st' hl hinit i s hstep' hans
  rw [hinp] at hkvs2
  injection hkvs2 with hke
  subst hke
  rcases hcase with ⟨hnc, _⟩ | ⟨_, ht⟩
  · exact absurd hcomp hnc
  · subst ht
    refine ⟨hcomp, ?_, hi1.symm, ?_⟩
    · rw [hres, pyLookup_dictGet hmsg (Json.str "Task completed")]
    · obtain ⟨j, hj, hcal, hlen2, _⟩ :=
        runLoop_growth env N (initRunSt d) 1 st' hl
      have h0 : (initRunSt d).calls = 0 := rfl
      have h00 : (initRunSt d).task.steps.length = 0 := rfl
      omega

/-- Witness for C2: under envA the terminal action is parsed on step one
and the returned task is completed with the message parameter as result,
one step and one provider call. -/
theorem claim_c2_terminal_action_witness :
    taskA.state = AgentState.completed ∧
    taskA.result = some (Json.str "done") ∧
    taskA.steps.length = 0 + 1 ∧ 1 = 0 + 1 :=
  claim_c2_terminal_action envA 3 "t" taskA 1 0 stepA
    [("message", Json.str "done")] (Json.str "done")
    (by rfl) (by rfl) (by rfl) (by rfl) (by rfl)

/-- Counterexample for C1 as stated: with no callback at all (so the
callback proviso holds), a provider reply choosing the terminal action with
a null action_input makes run raise an AttributeError to the host
(agent.py line 171 calls .get on None) instead of returning a task. -/
theorem claim_c1_counterexample :
    agentRun envX 1 "t" =
      Except.error "AttributeError: action_input has no attribute get" := rfl

/-- Claim C1 (amended): for every instruction, environment and budget N,
run makes at most N provider calls and returns, without raising, a task
whose final state is completed or error, provided the per-step callback
(if any) does not raise and every decoded reply choosing the terminal
action carries a JSON object as its action_input. -/
theorem claim_c1_run_bounded_terminal (env : Env) (N : Nat) (d : String)
    (hcb : ∀ s, envCallback env s = none)
    (hdec : ∀ sp kvs, env.decode sp = some kvs →
      pyDictGet kvs "action" Json.null = Json.str "answer_user" →
      ∃ kvs2, pyDictGet kvs "action_input" (Json.obj []) = Json.obj kvs2) :
    ∃ t c, agentRun env N d = Except.ok (t, c) ∧
      (t.state = AgentState.completed ∨ t.state = AgentState.error) ∧
      c ≤ N := by
  obtain ⟨st', hl⟩ := runLoop_total env hcb hdec N (initRunSt d) 1
  obtain ⟨j, hj, hcal, _, _⟩ := runLoop_growth env N (initRunSt d) 1 st' hl
  have h0 : (initRunSt d).calls = 0 := rfl
  by_cases hcomp : st'.task.state = AgentState.completed
  · refine ⟨st'.task, st'.calls, ?_, Or.inl hcomp, by omega⟩
    unfold agentRun
    rw [hl]
    show (if st'.task.state ≠ AgentState.completed then
        Except.ok ({ st'.task with
                      state := AgentState.error,
                      error := some maxStepsMsg }, st'.calls)
      else Except.ok (st'.task, st'.calls)) = _
    rw [if_neg (not_not_intro hcomp)]
  · refine ⟨{ st'.task with
        state := AgentState.error,
        error := some maxStepsMsg }, st'.calls, ?_, Or.inr rfl, by omega⟩
    unfold agentRun
    rw [hl]
    show (if st'.task.state ≠ AgentState.completed then
        Except.ok ({ st'.task with
                      state := AgentState.error,
                      error := some maxStepsMsg }, st'.calls)
      else Except.ok (st'.task, st'.calls)) = _
    rw [if_pos hcomp]

/-- Witness for C1 (amended) under envB with budget two: run returns a task
in a terminal state after at most two provider calls. -/
theorem claim_c1_run_bounded_terminal_witness :
    ∃ t c, agentRun envB 2 "t" = Except.ok (t, c) ∧
      (t.state = AgentState.completed ∨ t.state = AgentState.error) ∧
      c ≤ 2 :=
  claim_c1_run_bounded_terminal envB 2 "t" (fun _ => rfl)
    (fun _ kvs h1 _ => Option.noConfusion h1)

/-- Claim C6: a step whose tool-executor call raises has the exception
caught at the loop boundary, its observation set to an error string naming
the failed action, the task state flipped to error, and the loop continues
to the next step rather than terminating the run. -/
theorem claim_c6_executor_failure (env : Env) (st : RunSt) (n : Nat)
    (stp : AgentStep) (ex : Nat → Json → Json → Except String String)
    (e : String)
    (hstp : stepParsed env st n = stp)
    (hcb : envCallback env stp = none)
    (hans : isAnswerUser stp.action = false)
    (htr : stp.action.truthy = true)
    (hex : env.execTool = some ex)
    (herr : ex stp.step_number stp.action
      (pyOr stp.action_input (Json.obj [])) = Except.error e) :
    ∃ st1 : RunSt,
      runStep env st n = Except.ok (st1, false) ∧
      st1.task.state = AgentState.error ∧
      st1.task.steps = st.task.steps ++
        [{ stp with observation := some (execErrorMsg stp.action e) }] ∧
      (∀ r, runLoop env st n (r + 1) = runLoop env st1 (n + 1) r) := by
  subst hstp
  have hrs := runStep_exec env st n hcb hans
  have her := execResult_err env st (stepTask1 env st n)
    (stepParsed env st n) ex e hex htr herr
  refine ⟨(execPhase env st (st.calls + 1) (stepTask1 env st n)
    (stepParsed env st n)).fst, ?_, ?_, ?_, ?_⟩
  · rw [hrs]
    exact rfl
  · show (execResult env st (stepTask1 env st n)
      (stepParsed env st n)).fst.state = AgentState.error
    rw [her]
  · show (execResult env st (stepTask1 env st n)
      (stepParsed env st n)).fst.steps = _
    rw [her]
    show (stepTask1 env st n).steps ++ _ = _
    rw [stepTask1_steps]
  · intro r
    exact runLoop_cont env st _ n r hrs

/-- Witness for C6: under envC6 the executor raises on step one, the
observation names the click action, the task is in state error and the
loop is set to continue. -/
theorem claim_c6_executor_failure_witness :
    ∃ st1 : RunSt,
      runStep envC6 (initRunSt "t") 1 = Except.ok (st1, false) ∧
      st1.task.state = AgentState.error ∧
      st1.task.steps = (initRunSt "t").task.steps ++
        [{ stepC6 with
            observation := some (execErrorMsg stepC6.action "boom") }] ∧
      (∀ r, runLoop envC6 (initRunSt "t") 1 (r + 1) =
        runLoop envC6 st1 2 r) :=
  claim_c6_executor_failure envC6 (initRunSt "t") 1 stepC6
    (fun _ _ _ => Except.error "boom") "boom"
    (by rfl) rfl rfl rfl rfl rfl

/-- Claim C9: a reply with no JSON object produces a step with an unset
action whose thought is the whole raw reply, the corrective instruction is
appended to the transcript, the task is not marked failed for that reason
(its state stays thinking), and the loop continues: the parse failure only
consumes one step of the budget. -/
theorem claim_c9_parse_failure (env : Env) (st : RunSt) (n : Nat)
    (resp : String)
    (hresp : stepResponse env st n = resp)
    (hspan : specSpan resp = none)
    (hcb : envCallback env (rawStep resp n) = none)
    (hstop : env.stopAfterGen n = false) :
    ∃ st1 : RunSt,
      runStep env st n = Except.ok (st1, false) ∧
      st1.task.steps = st.task.steps ++ [rawStep resp n] ∧
      st1.messages = st.messages ++ [correctiveMsg] ∧
      st1.task.state = AgentState.thinking ∧
      (∀ r, runLoop env st n (r + 1) = runLoop env st1 (n + 1) r) := by
  subst hresp
  have hp : stepParsed env st n = rawStep (stepResponse env st n) n := by
    unfold stepParsed
    exact parseResponse_of_span_none env.decode (stepResponse env st n) n hspan
  have hcb' : envCallback env (stepParsed env st n) = none := by
    rw [hp]
    exact hcb
  have hans : isAnswerUser (stepParsed env st n).action = false := by
    rw [hp]
    rfl
  have htr : (stepParsed env st n).action.truthy = false := by
    rw [hp]
    rfl
  have hnone : isPyNone (stepParsed env st n).action = true := by
    rw [hp]
    rfl
  have hrs := runStep_exec env st n hcb' hans
  have hexec : execResult env st (stepTask1 env st n) (stepParsed env st n) =
      noExecResult st (stepTask1 env st n) (stepParsed env st n) := by
    cases hex : env.execTool with
    | none => exact execResult_no_executor env st _ _ hex
    | some ex => exact execResult_not_truthy env st _ _ ex hex htr
  refine ⟨(execPhase env st (st.calls + 1) (stepTask1 env st n)
    (stepParsed env st n)).fst, ?_, ?_, ?_, ?_, ?_⟩
  · rw [hrs]
    exact rfl
  · show (execResult env st (stepTask1 env st n)
      (stepParsed env st n)).fst.steps = _
    rw [hexec]
    show (stepTask1 env st n).steps ++ [stepParsed env st n] = _
    rw [stepTask1_steps, hp]
  · show (if isPyNone (stepParsed env st n).action = true then
        (execResult env st (stepTask1 env st n)
          (stepParsed env st n)).snd ++ [correctiveMsg]
      else (execResult env st (stepTask1 env st n)
        (stepParsed env st n)).snd) = _
    rw [hnone, if_pos rfl, hexec]
    rfl
  · show (execResult env st (stepTask1 env st n)
      (stepParsed env st n)).fst.state = _
    rw [hexec]
    show (stepTask1 env st n).state = _
    rw [stepTask1_no_stop env st n hstop]
  · intro r
    exact runLoop_cont env st _ n r hrs

/-- Witness for C9: under envB the prose reply hi parses to a raw step on
step one, the corrective entry is appended, and the state stays thinking. -/
theorem claim_c9_parse_failure_witness :
    ∃ st1 : RunSt,
      runStep envB (initRunSt "t") 1 = Except.ok (st1, false) ∧
      st1.task.steps = (initRunSt "t").task.steps ++ [rawStep "hi" 1] ∧
      st1.messages = (initRunSt "t").messages ++ [correctiveMsg] ∧
      st1.task.state = AgentState.thinking ∧
      (∀ r, runLoop envB (initRunSt "t") 1 (r + 1) =
        runLoop envB st1 2 r) :=
  claim_c9_parse_failure envB (initRunSt "t") 1 "hi" rfl rfl rfl rfl

/-- Counterexample for C7 as stated: a per-step callback that raises aborts
the loop and the exception propagates out of run, so no task is returned
to the host. -/
theorem claim_c7_counterexample :
    agentRun envC7 1 "t" = Except.error "boom" := rfl

/-- Claim C7 (amended): when the per-step callback raises, the loop is
aborted: lines 165-166 have no try block, so the exception propagates out
of run and the host receives no task. -/
theorem claim_c7_callback_exception (env : Env)
    (cb : AgentStep → Option String) (m : String) (N : Nat) (d : String)
    (hcb : env.onStep = some cb)
    (hraise : ∀ s, cb s = some m)
    (hN : 1 ≤ N) :
    agentRun env N d = Except.error m := by
  obtain ⟨r, hr⟩ : ∃ r, N = r + 1 := ⟨N - 1, by omega⟩
  subst hr
  have hrs : runStep env (initRunSt d) 1 = Except.error m := by
    refine runStep_cb_raises env (initRunSt d) 1 m ?_
    unfold envCallback
    rw [hcb]
    exact hraise _
  unfold agentRun runLoop
  rw [hrs]

/-- Witness for C7 (amended): under envC7 with budget two the run aborts
with the callback exception. -/
theorem claim_c7_callback_exception_witness :
    agentRun envC7 2 "t" = Except.error "boom" :=
  claim_c7_callback_exception envC7 (fun _ => some "boom") "boom" 2 "t"
    rfl (fun _ => rfl) (by omega)

/-- Counterexample for C8 as stated: stop fires at the checkpoint right
after the provider call of step 1 returns, yet the run continues for its
whole budget and the returned task carries the max-steps reason, not the
cancellation reason. -/
theorem claim_c8_counterexample :
    envC8.stopAfterGen 1 = true ∧
    agentRun envC8 2 "t" =
      Except.ok ({ description := "t"
                   steps := [rawStep "hi" 1, rawStep "hi" 2]
                   state := AgentState.error
                   result := none
                   error := some "Max steps reached without completing task" },
        2) :=
  ⟨rfl, rfl⟩

/-- Claim C8 (amended): stop flips the current task to error with the
cancellation reason at the moment of the call, but the loop has no stop
checkpoint: the next iteration resets the state to thinking, and a run
that never picks the terminal action ends with the final check overwriting
the error text with the max-steps reason, so the task returned by run does
not carry the cancellation reason. -/
theorem claim_c8_stop_not_observed (env : Env) (N : Nat) (d : String)
    (t : AgentTask) (c : Nat) (k : Nat)
    (hstop : env.stopAfterGen k = true)
    (hrun : agentRun env N d = Except.ok (t, c))
    (hno : ∀ s ∈ t.steps, isAnswerUser s.action = false) :
    (∀ tk : AgentTask, (stopTask tk).state = AgentState.error ∧
      (stopTask tk).error = some "Task cancelled by user") ∧
    t.state = AgentState.error ∧ t.error = some maxStepsMsg ∧
    t.error ≠ some "Task cancelled by user" := by
  refine ⟨fun tk => ⟨rfl, rfl⟩, ?_⟩
  obtain ⟨st', hl, hc, hsteps, hcase⟩ := agentRun_inv env N d t c hrun
  have hno' : ∀ s ∈ st'.task.steps, isAnswerUser s.action = false := by
    intro s hs
    refine hno s ?_
    rw [hsteps]
    exact hs
  have hinit : (initRunSt d).task.state ≠ AgentState.completed := by
    intro hh
    cases hh
  obtain ⟨hlen, hnc2⟩ :=
    runLoop_no_answer env N (initRunSt d) 1 st' hl hno' hinit
  rcases hcase with ⟨_, ht⟩ | ⟨hcomp, _⟩
  · subst ht
    refine ⟨rfl, rfl, ?_⟩
    intro heq
    injection heq with heq2
    exact absurd heq2 (by decide)
  · exact absurd hcomp hnc2

/-- Witness for C8 (amended): under envC8 the stop fires during step one
and the returned task carries the max-steps reason, not the cancellation
reason. -/
theorem claim_c8_stop_not_observed_witness :
    (∀ tk : AgentTask, (stopTask tk).state = AgentState.error ∧
      (stopTask tk).error = some "Task cancelled by user") ∧
    taskB.state = AgentState.error ∧ taskB.error = some maxStepsMsg ∧
    taskB.error ≠ some "Task cancelled by user" :=
  claim_c8_stop_not_observed envC8 2 "t" taskB 2 1 (by rfl) (by rfl)
    (by decide)

end Evos
